import Mathlib

/-
Verification of the tariff-map repository's identity-resolution, metric-join,
color-scale and interaction code against its natural-language specification.

The TypeScript sources are shallowly embedded: JavaScript objects used as
string-keyed dictionaries become association lists in insertion order,
JavaScript numbers become rationals (with an explicit `JsVal` type where the
code can produce `undefined` or `NaN`), and the opaque d3 scale outputs become
constructors of a small `Color` type that records which scale was applied to
which finite input, or that the interpolation parameter was `NaN` / non-finite.
-/

namespace TariffMap

/-- Lookup in a JavaScript object modelled as an association list
(`obj[k]`, yielding `undefined` = `none` when the key is absent). -/
def entGet {α : Type} : List (String × α) → String → Option α
  | [], _ => none
  | (k', v') :: rest, k => if k' = k then some v' else entGet rest k

/-- Assignment `obj[k] = v` on a JavaScript object modelled as an association
list: replaces the value at an existing key in place, otherwise appends the
new key (JavaScript string-keyed objects preserve insertion order). -/
def entSet {α : Type} : List (String × α) → String → α → List (String × α)
  | [], k, v => [(k, v)]
  | (k', v') :: rest, k, v =>
      if k' = k then (k', v) :: rest else (k', v') :: entSet rest k v

theorem entGet_entSet {α : Type} (m : List (String × α)) (a : String) (v : α)
    (k : String) :
    entGet (entSet m a v) k = if a = k then some v else entGet m k := by
  induction m with
  | nil =>
      by_cases h : a = k <;> simp [entSet, entGet, h]
  | cons hd tl ih =>
      obtain ⟨k', v'⟩ := hd
      by_cases h1 : k' = a
      · subst h1
        by_cases h2 : k' = k <;> simp [entSet, entGet, h2]
      · by_cases h2 : k' = k
        · subst h2
          have h3 : ¬ a = k' := fun h => h1 h.symm
          simp [entSet, entGet, h1, h3]
        · simp [entSet, entGet, h1, h2, ih]

/-- Overwriting every key of `l` with the same value `v` (a `forEach` of
assignments), as done by the EU propagation loop in `loadTariffData`. -/
theorem entGet_foldl_set_const (l : List String) (m : List (String × α))
    (v : α) (k : String) :
    entGet (l.foldl (fun acc c => entSet acc c v) m) k =
      if k ∈ l then some v else entGet m k := by
  induction l generalizing m with
  | nil => simp
  | cons hd tl ih =>
      rw [List.foldl_cons, ih]
      by_cases h1 : k ∈ tl
      · simp [h1]
      · by_cases h2 : k = hd
        · subst h2
          simp [h1, entGet_entSet]
        · have h3 : ¬ hd = k := fun h => h2 h.symm
          simp [List.mem_cons, h1, h2, h3, entGet_entSet]

/-! ## Aggregate (EU) propagation in the tariff map loader -/

/-- One item of the `fetchTariffMap` response consumed by `loadTariffData`. -/
structure TariffMapEntry where
  country_name : String
  us_reciprocal_tariff : ℚ
  trump_claimed_tariff : ℚ
deriving DecidableEq

/-- The per-country value stored in the `tariffMap` record built by
`loadTariffData`. -/
structure TariffInfo where
  us_reciprocal_tariff : ℚ
  trump_claimed_tariff : ℚ
deriving DecidableEq

/-- The hard-coded list of EU member names used for aggregate propagation. -/
def EU_COUNTRIES : List String :=
  ["Austria", "Belgium", "Bulgaria", "Croatia", "Cyprus", "Czech Republic",
   "Denmark", "Estonia", "Finland", "France", "Germany", "Greece",
   "Hungary", "Ireland", "Italy", "Latvia", "Lithuania", "Luxembourg",
   "Malta", "Netherlands", "Poland", "Portugal", "Romania", "Slovakia",
   "Slovenia", "Spain", "Sweden"]

/-- The `reduce` in `loadTariffData` that keys the fetched tariff items by
`country_name`. -/
def buildTariffMap (tariffs : List TariffMapEntry) : List (String × TariffInfo) :=
  tariffs.foldl
    (fun acc item =>
      entSet acc item.country_name
        ⟨item.us_reciprocal_tariff, item.trump_claimed_tariff⟩)
    []

/-- The body of `loadTariffData`: build the name-keyed tariff map, then, when
the response carries a record for the "European Union" aggregate, assign that
record to every name in `EU_COUNTRIES` (the `forEach` loop
`tariffMap[country] = euTariff`). -/
def loadTariffData (tariffs : List TariffMapEntry) : List (String × TariffInfo) :=
  match entGet (buildTariffMap tariffs) "European Union" with
  | none => buildTariffMap tariffs
  | some euTariff =>
      EU_COUNTRIES.foldl (fun acc c => entSet acc c euTariff) (buildTariffMap tariffs)

/-- A fetched tariff set in which the member "France" and the aggregate
"European Union" both carry direct values. -/
def c1Tariffs : List TariffMapEntry :=
  [⟨"France", 10, 20⟩, ⟨"European Union", 5, 7⟩]

/-- C1 counterexample: "France" has the direct value `(10, 20)` in the fetched
set and "European Union" has the direct value `(5, 7)`, yet after
`loadTariffData` the record stored for "France" is the aggregate's `(5, 7)`,
not France's own `(10, 20)`: aggregate propagation overwrites members that
already have a direct record. -/
theorem c1_direct_value_overwritten :
    entGet (buildTariffMap c1Tariffs) "France" = some ⟨10, 20⟩ ∧
    entGet (loadTariffData c1Tariffs) "France" = some ⟨5, 7⟩ ∧
    (⟨5, 7⟩ : TariffInfo) ≠ ⟨10, 20⟩ := by
  refine ⟨rfl, rfl, by decide⟩

/-- C1 amended: whenever the fetched set gives the "European Union" aggregate a
direct record, `loadTariffData` assigns that record to every member listed in
`EU_COUNTRIES`, regardless of whether the member already has a direct record of
its own (aggregate propagation overwrites direct member values). -/
theorem c1_aggregate_overwrites_every_member
    (tariffs : List TariffMapEntry) (Y : String) (eu : TariffInfo)
    (hY : Y ∈ EU_COUNTRIES)
    (heu : entGet (buildTariffMap tariffs) "European Union" = some eu) :
    entGet (loadTariffData tariffs) Y = some eu := by
  unfold loadTariffData
  rw [heu]
  rw [entGet_foldl_set_const]
  simp [hY]

/-- Witness for the amended C1 theorem at the concrete fetched set
`c1Tariffs`. -/
theorem c1_aggregate_overwrites_every_member_witness :
    entGet (loadTariffData c1Tariffs) "France" = some ⟨5, 7⟩ :=
  c1_aggregate_overwrites_every_member c1Tariffs "France" ⟨5, 7⟩
    (by decide) rfl

/-! ## Colors and JavaScript number values -/

/-- The display color computed for a country. Literal color strings are kept
as strings; the outputs of the d3 scales are kept abstract, recording which
scale was applied to which finite input. `nanRgb` stands for the
`"rgb(NaN, NaN, NaN)"`-style string d3 serializes when the interpolation
parameter is `NaN` (input `NaN`, or `log` of a negative number); `infRgb`
stands for the non-finite channel string produced when the parameter is
infinite (`log 0`). -/
inductive Color where
  | hex (s : String)
  | tariffLin (v : ℚ)
  | deficitLin (v : ℚ)
  | logInterp (v : ℚ)
  | nanRgb
  | infRgb
deriving DecidableEq

/-- A JavaScript number-typed value as it flows through the deficit color
code: `undefined`, `NaN`, or a finite number. -/
inductive JsVal where
  | undef
  | nan
  | num (q : ℚ)
deriving DecidableEq

/-- The JavaScript expression `obj?.field / d` for a possibly-absent record:
when the optional chain yields `undefined`, dividing by a number gives `NaN`,
never `undefined`. -/
def jsChainDiv (o : Option ℚ) (d : ℚ) : JsVal :=
  match o with
  | none => JsVal.nan
  | some q => JsVal.num (q / d)

/-- Truthiness of a JavaScript string-typed value: `undefined` and the empty
string are falsy. -/
def jsTruthyStr : Option String → Bool
  | none => false
  | some s => !(s == "")

/-! ## The TradeDeficitMap fill-color lookup (part_009) -/

/-- One entry of the trade-deficit response consumed by the TradeDeficitMap
component. -/
structure TradeDeficitEntry where
  country_id : String
  country_name : String
  deficit_thousands : ℚ
deriving DecidableEq

/-- The `reduce` in the TradeDeficitMap fetch effect that keys the response
entries by `country_id`, starting from a fresh empty object. -/
def buildTdDeficitData (resp : List TradeDeficitEntry) :
    List (String × TradeDeficitEntry) :=
  resp.foldl (fun acc e => entSet acc e.country_id e) []

/-- The d3 `scaleLinear` used by TradeDeficitMap (domain
`[-50, -25, 0, 25, 50]`, five color stops): a finite input yields a finite
piecewise-linear interpolation, while `NaN` or `undefined` input makes every
interpolated channel `NaN`. -/
def d3DeficitLinear : JsVal → Color
  | JsVal.num q => Color.deficitLin q
  | _ => Color.nanRgb

/-- The `getCountryColor` of the TradeDeficitMap component: geographies with a
falsy id get the missing color, `"USA"` gets the fixed US fill `"#C4C3C8"`,
and otherwise the code computes
`deficitData[countryId]?.deficit_thousands / 1000000` and passes it to the
linear scale unless it is `undefined` — which, being the result of a numeric
division, it never is. -/
def tdGetCountryColor (deficitData : List (String × TradeDeficitEntry))
    (geoId : Option String) : Color :=
  if jsTruthyStr geoId = false then Color.hex "#F1F5F9"
  else if geoId = some "USA" then Color.hex "#C4C3C8"
  else
    let deficit :=
      jsChainDiv ((entGet deficitData (geoId.getD "")).map
        TradeDeficitEntry.deficit_thousands) 1000000
    if deficit = JsVal.undef then Color.hex "#F1F5F9"
    else d3DeficitLinear deficit

/-- C2: evaluating the TradeDeficitMap `getCountryColor` at a country id that
is present on the map but absent from the joined deficit data: the optional
chain gives `undefined`, the division turns it into `NaN`, the
`deficit === undefined` guard (the code's own missing-data check) never fires,
and the scale is applied to `NaN`, yielding a NaN-derived color instead of the
missing color `"#F1F5F9"`. -/
theorem c2_missing_entry_yields_nan_color :
    tdGetCountryColor [] (some "076") = Color.nanRgb ∧
    Color.nanRgb ≠ Color.hex "#F1F5F9" := by
  exact ⟨rfl, by decide⟩

/-! ## Identity resolution: `loadData` and `getCountryCode` (part_014) -/

/-- A country as returned by `fetchCountries`. -/
structure Country where
  name : String
  iso_alpha3 : String

/-- The loop in `loadData` that builds the name-to-code table:
`nameToCode[country.name] = country.iso_alpha3` for each fetched country. -/
def buildNameToCode (countries : List Country) : List (String × String) :=
  countries.foldl (fun acc c => entSet acc c.name c.iso_alpha3) []

/-- Character-list test that `sub` starts `s` (helper for the substring
test). -/
def charsLeadWith : List Char → List Char → Bool
  | [], _ => true
  | _ :: _, [] => false
  | a :: as, b :: bs => a = b && charsLeadWith as bs

/-- Character-list test that `sub` occurs contiguously inside `s`. -/
def charsContain (sub : List Char) : List Char → Bool
  | [] => sub.isEmpty
  | b :: bs => charsLeadWith sub (b :: bs) || charsContain sub bs

/-- The JavaScript `s.includes(sub)` substring test. -/
def jsIncludes (s sub : String) : Bool :=
  charsContain sub.toList s.toList

/-- ASCII case folding of one character, the fragment of JavaScript
`toLowerCase` exercised by the country names in this code. -/
def asciiLower (c : Char) : Char :=
  if 65 ≤ c.toNat && c.toNat ≤ 90 then Char.ofNat (c.toNat + 32) else c

/-- The JavaScript `s.toLowerCase()` on the ASCII strings this code
compares. -/
def jsToLower (s : String) : String :=
  String.mk (s.toList.map asciiLower)

/-- Falsiness of the string-typed `code` variable in `getCountryCode`:
`undefined` and the empty string are falsy. -/
def jsFalsyOptStr : Option String → Bool
  | none => true
  | some s => s == ""

/-- The close-match predicate of `getCountryCode`: entry name and token
substring-match each other case-insensitively, in either direction. -/
def closeMatchPred (countryName : String) (e : String × String) : Bool :=
  jsIncludes (jsToLower e.1) (jsToLower countryName) ||
    jsIncludes (jsToLower countryName) (jsToLower e.1)

/-- The `getCountryCode` resolver of the page component: exact lookup of the
token in the name-to-code table; when that is falsy, `find` the first entry
whose name substring-matches the token case-insensitively (in either
direction) and take its code; otherwise return the original (falsy) value. -/
def getCountryCode (nameToCode : List (String × String))
    (countryName : String) : Option String :=
  let code := entGet nameToCode countryName
  if jsFalsyOptStr code then
    match nameToCode.find? (closeMatchPred countryName) with
    | some e => some e.2
    | none => code
  else code

theorem getCountryCode_exact_hit (m : List (String × String)) (t X : String)
    (h : entGet m t = some X) (hX : X ≠ "") :
    getCountryCode m t = some X := by
  unfold getCountryCode
  rw [h]
  have : jsFalsyOptStr (some X) = false := by
    simp [jsFalsyOptStr, hX]
  simp [this]

theorem getCountryCode_exact_miss (m : List (String × String)) (t : String)
    (h : entGet m t = none) :
    getCountryCode m t = (m.find? (closeMatchPred t)).map Prod.snd := by
  unfold getCountryCode
  rw [h]
  cases m.find? (closeMatchPred t) <;> simp [jsFalsyOptStr]

/-- C3 counterexample: "Germany" is registered with canonical code "DEU", yet
resolving the token "DEU" — an exact `isoAlpha3` of a registered country,
which the claim's step (1) would return — yields `none`: the resolver has no
exact-ISO3 (or numeric-id) lookup step, only a name lookup and a substring
fallback, and "DEU" matches neither. -/
theorem c3_iso3_token_unresolved :
    buildNameToCode [⟨"Germany", "DEU"⟩] = [("Germany", "DEU")] ∧
    getCountryCode (buildNameToCode [⟨"Germany", "DEU"⟩]) "DEU" = none := by
  exact ⟨rfl, by decide⟩

/-- C3 amended: resolution tries exactly two steps, in this order: (1) exact
match of the token against the registered country names, accepted when the
stored code is truthy; (2) case-insensitive substring match in either
direction between the token and each registered name, returning the first
matching entry's code — and when neither step matches the result is the
undefined exact-lookup value (no exception). There are no exact-isoAlpha3 or
numeric-id steps. -/
theorem c3_resolution_order (m : List (String × String)) (t : String) :
    (∀ X, entGet m t = some X → X ≠ "" → getCountryCode m t = some X) ∧
    (entGet m t = none →
      getCountryCode m t = (m.find? (closeMatchPred t)).map Prod.snd) := by
  exact ⟨fun X h hX => getCountryCode_exact_hit m t X h hX,
    fun h => getCountryCode_exact_miss m t h⟩

/-- Witness for the amended C3 theorem: on the concrete registry
`[("Germany", "DEU")]`, the exact step resolves "Germany" and the fallback
step resolves the token "germ" by substring match. -/
theorem c3_resolution_order_witness :
    getCountryCode [("Germany", "DEU")] "Germany" = some "DEU" ∧
    getCountryCode [("Germany", "DEU")] "germ" =
      (List.find? (closeMatchPred "germ") [("Germany", "DEU")]).map Prod.snd := by
  exact ⟨(c3_resolution_order [("Germany", "DEU")] "Germany").1 "DEU" rfl
      (by decide),
    (c3_resolution_order [("Germany", "DEU")] "germ").2 rfl⟩

/-- C4 counterexample: "Japan" is registered with canonical code "JPN";
resolving the registered name "Japan" yields "JPN" as the claim states, but
resolving the canonical code "JPN" itself yields `none`, not "JPN": the
canonical codes are not registered as lookup keys and "JPN" does not
substring-match any registered name. -/
theorem c4_canonical_code_not_resolved :
    entGet (buildNameToCode [⟨"Japan", "JPN"⟩]) "Japan" = some "JPN" ∧
    getCountryCode (buildNameToCode [⟨"Japan", "JPN"⟩]) "JPN" = none := by
  exact ⟨rfl, by decide⟩

/-- C4 amended: half of the alias-closure property holds — for every
registered alias (country name) `a` stored with a nonempty canonical code
`X`, resolving `a` yields `X`. The other half fails: resolving the canonical
code `X` itself is not supported (see the counterexample). -/
theorem c4_alias_closure_on_names (countries : List Country) (a X : String)
    (h : entGet (buildNameToCode countries) a = some X) (hX : X ≠ "") :
    getCountryCode (buildNameToCode countries) a = some X :=
  getCountryCode_exact_hit (buildNameToCode countries) a X h hX

/-- Witness for the amended C4 theorem on the concrete registry built from
`[⟨"Japan", "JPN"⟩]`. -/
theorem c4_alias_closure_on_names_witness :
    getCountryCode (buildNameToCode [⟨"Japan", "JPN"⟩]) "Japan" = some "JPN" :=
  c4_alias_closure_on_names [⟨"Japan", "JPN"⟩] "Japan" "JPN" rfl (by decide)

/-! ## Completion-order application of deficit fetch responses (part_009) -/

/-- The body of the TradeDeficitMap fetch effect when a response completes:
`setDeficitData` replaces the previous state wholesale with the freshly
reduced response — no request sequence number is consulted. -/
def applyDeficitResponse (_prev : List (String × TradeDeficitEntry))
    (resp : List TradeDeficitEntry) : List (String × TradeDeficitEntry) :=
  buildTdDeficitData resp

/-- The deficit-data state after a list of responses has completed, applied in
completion (arrival) order. -/
def applyCompletions (init : List (String × TradeDeficitEntry))
    (arrivals : List (List TradeDeficitEntry)) :
    List (String × TradeDeficitEntry) :=
  arrivals.foldl applyDeficitResponse init

/-- The response to the older request 1. -/
def c5Resp1 : List TradeDeficitEntry := [⟨"124", "Canada", 10⟩]

/-- The response to the newer request 2. -/
def c5Resp2 : List TradeDeficitEntry := [⟨"124", "Canada", 99⟩]

/-- C5 counterexample: when the newer response `c5Resp2` completes first and
the stale response `c5Resp1` completes afterwards, the final state holds
`c5Resp1`'s value, not `c5Resp2`'s: the late stale response is applied, not
discarded. -/
theorem c5_stale_response_overwrites :
    entGet (applyCompletions [] [c5Resp2, c5Resp1]) "124" =
      some ⟨"124", "Canada", 10⟩ ∧
    entGet (applyCompletions [] [c5Resp2]) "124" =
      some ⟨"124", "Canada", 99⟩ ∧
    (⟨"124", "Canada", 10⟩ : TradeDeficitEntry) ≠ ⟨"124", "Canada", 99⟩ := by
  exact ⟨rfl, rfl, by decide⟩

/-- C5 amended: the fetch effect carries no request sequence numbers, so
responses are applied in completion order and the final state is exactly the
reduction of whichever response completed last, regardless of anything that
completed before it (last completion wins, not last request). -/
theorem c5_last_completion_wins (init : List (String × TradeDeficitEntry))
    (earlier : List (List TradeDeficitEntry))
    (lastResp : List TradeDeficitEntry) :
    applyCompletions init (earlier ++ [lastResp]) = buildTdDeficitData lastResp := by
  simp [applyCompletions, List.foldl_append, applyDeficitResponse]

/-! ## The UsDeficitMap logarithmic scale and fill color -/

/-- One item of the `fetchDeficitMap` response. -/
structure DeficitMapItem where
  country_id : String
  country_code : String
  country_name : String
  deficit_thousands : ℚ
deriving DecidableEq

/-- The `fetchDeficitMap` response consumed by `useDeficitData`. -/
structure DeficitMapResponse where
  year : ℤ
  deficits : List DeficitMapItem

/-- The JavaScript `s.padStart(3, Char.zero-string)` used to normalize country
ids to the three-digit map format. -/
def padStart3 (s : String) : String :=
  if s.length < 3 then String.mk (List.replicate (3 - s.length) '0') ++ s
  else s

/-- The `reduce` building UsDeficitMap's `deficitMap`: keyed by the padded
country id, storing the deficit value and the country name. -/
def buildUsDeficitMap (deficits : List DeficitMapItem) :
    List (String × (ℚ × String)) :=
  deficits.foldl
    (fun acc item =>
      entSet acc (padStart3 item.country_id)
        (item.deficit_thousands, item.country_name))
    []

/-- The d3 `scaleLog` built by UsDeficitMap (domain `[|minValue|, 1]`, range
`["#DC2626", "#F1F5F9"]`): a positive input is interpolated on its logarithm
(the interpolation position, which also depends on the domain, is kept
abstract); `log 0 = -Infinity` makes the interpolation parameter infinite and
the logarithm of a negative number is `NaN`, so non-positive inputs produce
non-finite or NaN color channels, never the missing color. -/
def usDeficitLogScale (v : ℚ) : Color :=
  if 0 < v then Color.logInterp v
  else if v = 0 then Color.infRgb
  else Color.nanRgb

/-- The fill-color computation of `renderGeographies` in UsDeficitMap: the id
`"840"` (the United States) gets the fixed US fill `"#F1F5F9"`; a country
absent from the deficit map keeps the default `"#F1F5F9"`; a negative deficit
is passed to the logarithmic scale as its absolute value; a positive deficit
(surplus) gets `"#D1FAE5"`; a zero deficit gets `"#F1F5F9"`. -/
def usDeficitFillColor (deficitMap : List (String × (ℚ × String)))
    (countryId : String) : Color :=
  if countryId = "840" then Color.hex "#F1F5F9"
  else
    match entGet deficitMap countryId with
    | none => Color.hex "#F1F5F9"
    | some cd =>
        if cd.1 < 0 then usDeficitLogScale |cd.1|
        else if 0 < cd.1 then Color.hex "#D1FAE5"
        else Color.hex "#F1F5F9"

/-- C6 counterexample: the logarithmic color scale itself does not map
non-positive values to the missing color — at `0` it produces the non-finite
interpolation output and on a negative input the NaN one, neither of which is
`"#F1F5F9"`. -/
theorem c6_log_scale_nonpositive_not_missing :
    usDeficitLogScale 0 = Color.infRgb ∧
    usDeficitLogScale (-3) = Color.nanRgb ∧
    Color.infRgb ≠ Color.hex "#F1F5F9" ∧
    Color.nanRgb ≠ Color.hex "#F1F5F9" := by
  refine ⟨rfl, rfl, by decide, by decide⟩

/-- C6 amended: the raw d3 logarithmic scale yields NaN-derived or non-finite
colors on non-positive input, but the fill-color computation never passes a
non-positive value to it — negative deficits are passed as their (positive)
absolute value and zero deficits map directly to `"#F1F5F9"` — so the
rendered fill is never a NaN-derived color; and for every positive value the
scale interpolates on its logarithm. -/
theorem c6_fill_never_invalid (dm : List (String × (ℚ × String)))
    (id : String) :
    (usDeficitFillColor dm id ≠ Color.nanRgb ∧
      usDeficitFillColor dm id ≠ Color.infRgb) ∧
    (∀ v : ℚ, 0 < v → usDeficitLogScale v = Color.logInterp v) := by
  constructor
  · unfold usDeficitFillColor
    by_cases h840 : id = "840"
    · simp [h840]
    · rw [if_neg h840]
      cases hE : entGet dm id with
      | none => simp
      | some cd =>
          by_cases hneg : cd.1 < 0
          · have hpos : 0 < |cd.1| := abs_pos.mpr (ne_of_lt hneg)
            simp [hneg, usDeficitLogScale, hpos]
          · by_cases hposd : 0 < cd.1 <;> simp [hneg, hposd]
  · intro v hv
    simp [usDeficitLogScale, hv]

/-- Witness for the amended C6 theorem at a concrete map and input. -/
theorem c6_fill_never_invalid_witness :
    (usDeficitFillColor [] "156" ≠ Color.nanRgb ∧
      usDeficitFillColor [] "156" ≠ Color.infRgb) ∧
    usDeficitLogScale 2 = Color.logInterp 2 :=
  ⟨(c6_fill_never_invalid [] "156").1,
    (c6_fill_never_invalid [] "156").2 2 (by norm_num)⟩

/-! ## Zoom clamping -/

/-- A zoom button press. -/
inductive ZoomOp where
  | zin
  | zout

/-- `handleZoomIn`: multiply the zoom level by 1.5, clamped above at 4. -/
def handleZoomIn (z : ℚ) : ℚ := min (z * 1.5) 4

/-- `handleZoomOut`: divide the zoom level by 1.5, clamped below at 1. -/
def handleZoomOut (z : ℚ) : ℚ := max (z / 1.5) 1

/-- One zoom transition of the map state. -/
def zoomStep (z : ℚ) : ZoomOp → ℚ
  | ZoomOp.zin => handleZoomIn z
  | ZoomOp.zout => handleZoomOut z

/-- The zoom level reached from the initial `zoomLevel = 1` after a sequence
of zoom button presses. -/
def runZoom (ops : List ZoomOp) : ℚ :=
  ops.foldl zoomStep 1

theorem handleZoomIn_bounds (z : ℚ) (h1 : 1 ≤ z) :
    1 ≤ handleZoomIn z ∧ handleZoomIn z ≤ 4 := by
  unfold handleZoomIn
  refine ⟨le_min (by linarith) (by norm_num), min_le_right _ _⟩

theorem handleZoomOut_bounds (z : ℚ) (h4 : z ≤ 4) :
    1 ≤ handleZoomOut z ∧ handleZoomOut z ≤ 4 := by
  unfold handleZoomOut
  refine ⟨le_max_right _ _, max_le ?_ (by norm_num)⟩
  rw [div_le_iff₀ (by norm_num : (0 : ℚ) < 1.5)]
  linarith

theorem foldl_zoom_bounds (ops : List ZoomOp) :
    ∀ z : ℚ, 1 ≤ z → z ≤ 4 →
      1 ≤ ops.foldl zoomStep z ∧ ops.foldl zoomStep z ≤ 4 := by
  induction ops with
  | nil => intro z h1 h4; simpa using ⟨h1, h4⟩
  | cons op rest ih =>
      intro z h1 h4
      rw [List.foldl_cons]
      have hb : 1 ≤ zoomStep z op ∧ zoomStep z op ≤ 4 := by
        cases op with
        | zin => exact handleZoomIn_bounds z h1
        | zout => exact handleZoomOut_bounds z h4
      exact ih _ hb.1 hb.2

/-- C7: starting from `zoomLevel = 1`, every finite sequence of zoom-in and
zoom-out presses (multiply or divide by 1.5 with clamping) keeps the zoom
level within `[1, 4]`. -/
theorem c7_zoom_clamped (ops : List ZoomOp) :
    1 ≤ runZoom ops ∧ runZoom ops ≤ 4 :=
  foldl_zoom_bounds ops 1 le_rfl (by norm_num)

/-! ## Partial-failure behaviour of the deficit map -/

/-- The settlement of an asynchronous fetch. -/
inductive FetchOutcome (α : Type) where
  | ok (val : α)
  | failed

/-- The state exposed by `useDeficitData` once its single fetch has settled
(the `finally` clause has cleared `loading`): on success the response is
stored; on rejection the data stays `null` and the error message is set. -/
structure DeficitHookState where
  deficitData : Option DeficitMapResponse
  loading : Bool
  error : Option String

/-- Final `useDeficitData` state as a function of the fetch outcome. -/
def useDeficitDataFinal (o : FetchOutcome DeficitMapResponse) :
    DeficitHookState :=
  match o with
  | FetchOutcome.ok d => ⟨some d, false, none⟩
  | FetchOutcome.failed => ⟨none, false, some "Failed to fetch deficit data"⟩

/-- What the UsDeficitMap component returns from its render body. -/
inductive UsDeficitMapView where
  | loadingView
  | errorView (msg : String)
  | mapView (deficitMap : List (String × (ℚ × String)))

/-- The early returns of the UsDeficitMap component: a loading placeholder
while loading, an error placeholder when the hook reports an error, and the
map (over the joined deficit map) otherwise. -/
def usDeficitMapRender (s : DeficitHookState) : UsDeficitMapView :=
  if s.loading then UsDeficitMapView.loadingView
  else
    match s.error with
    | some e => UsDeficitMapView.errorView e
    | none =>
        UsDeficitMapView.mapView
          (buildUsDeficitMap
            (match s.deficitData with
             | some r => r.deficits
             | none => []))

/-- Whether a render output actually shows the map. -/
def isMapView : UsDeficitMapView → Bool
  | UsDeficitMapView.mapView _ => true
  | _ => false

/-- C8 counterexample: when the single deficit fetch rejects, the component
does not render the map at all (with the metric treated as absent); it
renders the error placeholder instead, so the source failure suppresses the
whole map output. -/
theorem c8_failure_suppresses_map :
    isMapView (usDeficitMapRender (useDeficitDataFinal
      (FetchOutcome.failed : FetchOutcome DeficitMapResponse))) = false := rfl

/-- C8 amended: when the deficit fetch rejects, the hook leaves the data
`null` and sets the error message, and the component renders the error
placeholder in place of the map; only a successful fetch renders the map,
over the deficit map joined from that fetch's own response (other metric sets
live in separate components with separate hooks). -/
theorem c8_failure_renders_error_view :
    useDeficitDataFinal (FetchOutcome.failed : FetchOutcome DeficitMapResponse) =
      ⟨none, false, some "Failed to fetch deficit data"⟩ ∧
    usDeficitMapRender (useDeficitDataFinal
      (FetchOutcome.failed : FetchOutcome DeficitMapResponse)) =
      UsDeficitMapView.errorView "Failed to fetch deficit data" ∧
    (∀ r : DeficitMapResponse,
      usDeficitMapRender (useDeficitDataFinal (FetchOutcome.ok r)) =
        UsDeficitMapView.mapView (buildUsDeficitMap r.deficits)) := by
  exact ⟨rfl, rfl, fun r => rfl⟩

/-! ## Country click handling -/

/-- The payload of the `onCountrySelect` event emitted by UsDeficitMap. -/
structure CountrySelection where
  name : String
  code : String
deriving DecidableEq

/-- The `handleCountryClick` of the WorldMap component: emit
`onCountryClick(countryName)` unless the clicked feature is the United
States; `none` means no event is emitted. -/
def handleCountryClickWM (countryName : String) : Option String :=
  if countryName ≠ "United States of America" then some countryName else none

/-- The `handleCountryClick` of the UsDeficitMap component: return without
emitting when the feature id or name is falsy or the id is `"840"` (the
United States); otherwise emit `onCountrySelect` with the feature's name and
id. -/
def handleCountryClickUDM (geoId geoName : Option String) :
    Option CountrySelection :=
  if jsTruthyStr geoId = false ∨ jsTruthyStr geoName = false ∨
      geoId = some "840" then none
  else some ⟨geoName.getD "", geoId.getD ""⟩

/-- The selected-country state after a click: the page's `handleCountrySelect`
stores the emitted selection; when no event is emitted the state is
unchanged. -/
def selectionAfterClick (sel : Option CountrySelection)
    (geoId geoName : Option String) : Option CountrySelection :=
  match handleCountryClickUDM geoId geoName with
  | none => sel
  | some c => some c

/-- C9: clicking the designated home country (the United States: name
"United States of America" in WorldMap, id "840" in UsDeficitMap) emits no
selection event and leaves the selected-country state unchanged, while
clicking any other country with a truthy id and name emits the selection
event carrying exactly that country. -/
theorem c9_home_click_noop :
    (∀ nm : Option String, handleCountryClickUDM (some "840") nm = none) ∧
    (∀ (sel : Option CountrySelection) (nm : Option String),
      selectionAfterClick sel (some "840") nm = sel) ∧
    (∀ id nm : String, id ≠ "840" → id ≠ "" → nm ≠ "" →
      handleCountryClickUDM (some id) (some nm) = some ⟨nm, id⟩) ∧
    handleCountryClickWM "United States of America" = none ∧
    (∀ nm : String, nm ≠ "United States of America" →
      handleCountryClickWM nm = some nm) := by
  refine ⟨?_, ?_, ?_, ?_, ?_⟩
  · intro nm
    simp [handleCountryClickUDM]
  · intro sel nm
    simp [selectionAfterClick, handleCountryClickUDM]
  · intro id nm h840 hid hnm
    have h1 : jsTruthyStr (some id) = true := by
      simp [jsTruthyStr, beq_iff_eq, hid]
    have h2 : jsTruthyStr (some nm) = true := by
      simp [jsTruthyStr, beq_iff_eq, hnm]
    simp [handleCountryClickUDM, h1, h2, h840]
  · simp [handleCountryClickWM]
  · intro nm h
    simp [handleCountryClickWM, h]

/-- Witness for the C9 theorem at concrete clicks. -/
theorem c9_home_click_noop_witness :
    handleCountryClickUDM (some "840") (some "United States of America") =
      none ∧
    selectionAfterClick none (some "840") (some "United States of America") =
      none ∧
    handleCountryClickUDM (some "124") (some "Canada") =
      some ⟨"Canada", "124"⟩ ∧
    handleCountryClickWM "United States of America" = none ∧
    handleCountryClickWM "Canada" = some "Canada" :=
  ⟨c9_home_click_noop.1 (some "United States of America"),
    c9_home_click_noop.2.1 none (some "United States of America"),
    c9_home_click_noop.2.2.1 "124" "Canada" (by decide) (by decide) (by decide),
    c9_home_click_noop.2.2.2.1,
    c9_home_click_noop.2.2.2.2 "Canada" (by decide)⟩

/-! ## The WorldMap fill-color lookup and zero values -/

/-- The per-country record read by the WorldMap `getCountryColor`; only the
`usImportTariff` field is consulted, and it may be absent. -/
structure WmCountryData where
  usImportTariff : Option ℚ
deriving DecidableEq

/-- The d3 `scaleLinear` of WorldMap (domain `[0, 10, 20, 30, 40, 50]`, six
gray color stops starting at `"#F1F5F9"`): output kept abstract as the scale
applied to its finite input. -/
def createColorScale (v : ℚ) : Color := Color.tariffLin v

/-- The `getCountryColor` of the WorldMap component: the United States gets
the fixed green fill; otherwise, when `data[countryName]?.usImportTariff` is
falsy (record absent, field absent, or value `0`) the missing color
`"#F1F5F9"` is returned, and only a truthy tariff reaches the linear scale,
capped at 50. -/
def wmGetCountryColor (data : List (String × WmCountryData))
    (countryName : String) : Color :=
  if countryName = "United States of America" then Color.hex "#10A981"
  else
    match entGet data countryName with
    | none => Color.hex "#F1F5F9"
    | some cd =>
        match cd.usImportTariff with
        | none => Color.hex "#F1F5F9"
        | some t => if t = 0 then Color.hex "#F1F5F9"
                    else createColorScale (min t 50)

/-- C10: for any non-US country whose joined record carries a falsy tariff
value (the field absent or exactly `0`), `getCountryColor` returns the
missing-data color `"#F1F5F9"` through the falsy guard, the same color an
entirely absent country gets — a zero tariff is indistinguishable from absent
data at the color interface. -/
theorem c10_zero_value_maps_to_missing (data : List (String × WmCountryData))
    (nm : String) (cd : WmCountryData)
    (hnm : nm ≠ "United States of America")
    (h : entGet data nm = some cd)
    (hz : cd.usImportTariff = none ∨ cd.usImportTariff = some 0) :
    wmGetCountryColor data nm = Color.hex "#F1F5F9" ∧
    wmGetCountryColor [] nm = Color.hex "#F1F5F9" := by
  constructor
  · unfold wmGetCountryColor
    rw [if_neg hnm, h]
    rcases hz with h0 | h0 <;> simp [h0]
  · unfold wmGetCountryColor
    rw [if_neg hnm]
    simp [entGet]

/-- Witness for the C10 theorem at a concrete record with tariff `0`. -/
theorem c10_zero_value_maps_to_missing_witness :
    wmGetCountryColor [("China", ⟨some 0⟩)] "China" = Color.hex "#F1F5F9" ∧
    wmGetCountryColor [] "China" = Color.hex "#F1F5F9" :=
  c10_zero_value_maps_to_missing [("China", ⟨some 0⟩)] "China" ⟨some 0⟩
    (by decide) rfl (Or.inr rfl)

end TariffMap
